import Mathlib

/-!
# Verification of the tarot reading client (frontend)

Shallow embedding of the client-side reading state machine of
`src/frontend/app/page.tsx` (the `handleSubmit` callbacks
`onProgress` / `onInterpretation` / `onComplete` / `onError`, plus the
card-display effect), and of the SSE stream parser of
`src/frontend/lib/api.ts` (`tarotAPI.createReadingStream`).

JavaScript conventions used by the source are made explicit:
* optional / possibly-absent object fields become `Option` values;
* `a || b` on strings picks `a` unless it is absent or empty (JS falsiness);
* `n || 0` on an optional number is `Option.getD 0`;
* `b || false` on an optional boolean is `Option.getD false`.

The React callbacks close over the render in which `handleSubmit` ran, so
the state values they read (`imageryDescription`, `interpretationDisplay`,
`showInterpretationBox`, `hasUserInteracted`, `isImageryExpanded`) are the
values of that render — for a fresh instance these are the initial
values (empty strings / `false`). The embedding fixes those captured
reads to these constants, matching a fresh client instance.
-/

namespace Tarot

/-- JS truthiness of an optional string: present and non-empty. -/
def jsTruthy : Option String → Bool
  | some s => s ≠ ""
  | none => false

/-- JS `a || b` for two optional strings: `a` unless falsy, else `b`. -/
def jsOrStr (a b : Option String) : Option String :=
  if jsTruthy a then a else b

/-- JS `a || d` where `a` is an optional string and `d` a default string. -/
def jsStrD (a : Option String) (d : String) : String :=
  match a with
  | some s => if s = "" then d else s
  | none => d

/-- `CardData` as built by the `cards_selected` branch of `page.tsx`.
Fields that the mapping can leave `undefined` at runtime are `Option`s. -/
structure CardData where
  card_id : Option String
  card_name_en : Option String
  card_name_cn : Option String
  position : Option String
  position_order : Int
  is_reversed : Bool
  image_url : Option String
deriving Repr, DecidableEq

/-- A raw card object of a `cards_selected` payload; every field may be
absent on the wire. -/
structure RawCard where
  card_id : Option String
  id : Option String
  card_name_en : Option String
  name : Option String
  card_name_cn : Option String
  position : Option String
  position_order : Option Int
  is_reversed : Option Bool
  image_url : Option String
deriving Repr, DecidableEq

/-- The card mapping of `page.tsx` lines 297-305:
`card_id: card.card_id || card.id`, `card_name_en: card.card_name_en || card.name`,
`position_order: card.position_order || 0`, `is_reversed: card.is_reversed || false`. -/
def convertCard (c : RawCard) : CardData :=
  { card_id := jsOrStr c.card_id c.id
    card_name_en := jsOrStr c.card_name_en c.name
    card_name_cn := c.card_name_cn
    position := c.position
    position_order := c.position_order.getD 0
    is_reversed := c.is_reversed.getD false
    image_url := c.image_url }

/-- Payload of a `progress` event as consumed by `page.tsx`'s `onProgress`
(the fields it reads besides the step string). -/
structure ProgressData where
  text : Option String
  selected_cards : Option (List RawCard)
  cards : Option (List RawCard)
  imagery_description : Option String
deriving Repr, DecidableEq

/-- Payload of a `complete` event as consumed by `page.tsx`'s `onComplete`. -/
structure CompleteData where
  reading_id : Option String
  id : Option String
deriving Repr, DecidableEq

/-- A typed event delivered to the client state machine: one callback
invocation of `createReadingStream`. -/
inductive StreamEvent where
  | progress (step : String) (data : ProgressData)
  | interpretation (text : String)
  | complete (data : CompleteData)
  | error (msg : String)
deriving Repr, DecidableEq

/-- The client reading state of `HomePage` (`page.tsx`): the `useState`
cells written by the stream callbacks.  `currentStep` is a `String`
because the source casts arbitrary step strings into `ReadingStep`
(`setCurrentStep(step as ReadingStep)`).  `interpretationBuffer` models
`interpretationBufferRef.current`; `typingActive` models whether the
typing interval is running. -/
structure ClientState where
  currentStep : String
  error : Option String
  cards : List CardData
  displayedCards : List CardData
  spreadType : String
  readingId : Option String
  imageryDescription : String
  interpretationDisplay : String
  interpretationBuffer : String
  showImageryBox : Bool
  showInterpretationBox : Bool
  isInterpretationExpanded : Bool
  typingActive : Bool
deriving Repr, DecidableEq

/-- The state after the reset block at the top of `handleSubmit`
(`page.tsx` lines 211-231).  `spreadType` and `readingId` are not reset
there; for a fresh instance they hold their `useState` initial values
(`'three_card'` and `null`). -/
def resetState : ClientState :=
  { currentStep := "question_analysis"
    error := none
    cards := []
    displayedCards := []
    spreadType := "three_card"
    readingId := none
    imageryDescription := ""
    interpretationDisplay := ""
    interpretationBuffer := ""
    showImageryBox := false
    showInterpretationBox := false
    isInterpretationExpanded := false
    typingActive := false }

/-- The `onProgress` callback of `handleSubmit` (`page.tsx` lines 274-342).
The captured render values (`imageryDescription` in the
`imagery_generated` branch, `showInterpretationBox` in the
`interpretation_started` branch) are the fresh-instance constants
`""` / `false`, so those guards are always taken. -/
def onProgressFn (s : ClientState) (step : String) (d : ProgressData) : ClientState :=
  if step = "imagery_chunk" ∧ jsTruthy d.text then
    -- append chunk text; if the buffer was empty, show the imagery box
    { s with
      imageryDescription := s.imageryDescription ++ d.text.getD ""
      showImageryBox := if s.imageryDescription = "" then true else s.showImageryBox }
  else
    let s1 := { s with currentStep := step }
    if step = "cards_selected" ∧ (d.selected_cards.isSome ∨ d.cards.isSome) then
      let cardList := match d.selected_cards with
        | some l => l
        | none => d.cards.getD []
      let cardData := cardList.map convertCard
      let s2 := { s1 with cards := cardData }
      let s3 := { s2 with
        spreadType :=
          if cardData.length = 3 then "three_card"
          else if cardData.length = 10 then "celtic_cross"
          else s2.spreadType }
      -- immediately display the first card
      if 0 < cardData.length then { s3 with displayedCards := cardData.take 1 } else s3
    else if step = "imagery_generated" then
      -- `data.imagery_description && !imageryDescription`: the captured
      -- render value of `imageryDescription` is "", so the adoption is
      -- guarded only by the payload being truthy
      if jsTruthy d.imagery_description then
        { s1 with imageryDescription := d.imagery_description.getD "" }
      else s1
    else if step = "interpretation_started" then
      -- captured `showInterpretationBox` is false, so the box is shown
      { s1 with showInterpretationBox := true }
    else s1

/-- The `onInterpretation` callback (`page.tsx` lines 344-357).  The
captured `interpretationDisplay` is `""` and the captured
`hasUserInteracted` / `isImageryExpanded` are `false`, so the box is
shown and the panel expanded on every invocation. -/
def onInterpretationFn (s : ClientState) (text : String) : ClientState :=
  { s with
    currentStep := "interpretation_streaming"
    showInterpretationBox := true
    interpretationBuffer := s.interpretationBuffer ++ text
    typingActive := true
    isInterpretationExpanded := true }

/-- The `onComplete` callback (`page.tsx` lines 358-383):
`const id = result?.reading_id || result?.id; if (id) setReadingId(id)`. -/
def onCompleteFn (s : ClientState) (d : CompleteData) : ClientState :=
  let id := jsOrStr d.reading_id d.id
  { s with
    currentStep := "complete"
    readingId := if jsTruthy id then id else s.readingId }

/-- The `onError` callback (`page.tsx` lines 384-405): stop the typing
interval, clear the interpretation buffer and display, surface the
message, revert the step to `idle`. -/
def onErrorFn (s : ClientState) (msg : String) : ClientState :=
  { s with
    typingActive := false
    interpretationBuffer := ""
    interpretationDisplay := ""
    error := some msg
    currentStep := "idle" }

/-- One step of the client state machine: dispatch one stream event to
the matching callback. -/
def applyEvent (s : ClientState) (e : StreamEvent) : ClientState :=
  match e with
  | .progress step d => onProgressFn s step d
  | .interpretation text => onInterpretationFn s text
  | .complete d => onCompleteFn s d
  | .error msg => onErrorFn s msg

/-- Replaying an event list on a fresh client instance: left fold of
`applyEvent` from the reset state. -/
def replay (evs : List StreamEvent) : ClientState :=
  evs.foldl applyEvent resetState

/-! ### The card display effect (`page.tsx` lines 153-203) -/

/-- The comparator of the card display effect:
`[...cards].sort((a, b) => a.position_order - b.position_order)`. -/
def cardLE (a b : CardData) : Bool :=
  a.position_order ≤ b.position_order

/-- `sortedCards` of the card display effect: the cards sorted stably by
`position_order` (JS `Array.prototype.sort` is stable; `mergeSort` is the
matching stable sort). -/
def sortedCards (cs : List CardData) : List CardData :=
  cs.mergeSort cardLE

/-- `totalDisplayTime` of the card display effect: 5000 ms for the
three-card spread, 10000 ms otherwise (the celtic cross). -/
def totalDisplayTime (spread : String) : ℚ :=
  if spread = "three_card" then 5000 else 10000

/-- `intervalPerCard = totalDisplayTime / sortedCards.length`. -/
def intervalPerCard (spread : String) (n : ℕ) : ℚ :=
  totalDisplayTime spread / n

/-- Reveal timeline of the card animation, in ms after `cards_selected`,
for the k-th card (1-indexed) of an n-card spread.  The first card is
displayed immediately inside the `cards_selected` branch
(`setDisplayedCards([cardData[0]])`, lines 318-322); afterwards the
effect re-arms a `setTimeout` of `intervalPerCard` whenever
`displayedCards.length < sortedCards.length`, so each further card
appears one interval after the previous one. -/
def revealTime (spread : String) (n : ℕ) : ℕ → ℚ
  | 0 => 0
  | k + 1 => if k = 0 then 0 else revealTime spread n k + intervalPerCard spread n

/-! ### Helper functions for the claims -/

/-- The text fields of the `imagery_chunk` events of a sequence, in
arrival order (an absent text field reads as the empty string). -/
def imageryChunkTexts (evs : List StreamEvent) : List String :=
  evs.filterMap fun e =>
    match e with
    | .progress step d => if step = "imagery_chunk" then some (d.text.getD "") else none
    | _ => none

/-- No `imagery_generated` event of the sequence carries a truthy
fallback `imagery_description` (so the fallback is never adopted). -/
def noAdoptedFallback (evs : List StreamEvent) : Prop :=
  ∀ d : ProgressData, StreamEvent.progress "imagery_generated" d ∈ evs →
    jsTruthy d.imagery_description = false

/-- A `cards_selected` payload carrying the given card list in its
`selected_cards` field and nothing else. -/
def payloadOfCards (cl : List RawCard) : ProgressData :=
  { text := none, selected_cards := some cl, cards := none, imagery_description := none }

/-- A progress payload with no readable fields. -/
def emptyPayload : ProgressData :=
  { text := none, selected_cards := none, cards := none, imagery_description := none }

/-- A raw card with every field absent. -/
def emptyRawCard : RawCard :=
  { card_id := none, id := none, card_name_en := none, name := none,
    card_name_cn := none, position := none, position_order := none,
    is_reversed := none, image_url := none }

/-- The imagery text contributed by one event: the text of an
`imagery_chunk` progress event (absent text reads as empty), nothing for
every other event. -/
def chunkTextOf (e : StreamEvent) : String :=
  match e with
  | .progress step d => if step = "imagery_chunk" then d.text.getD "" else ""
  | _ => ""

/-- Concatenation of a list of strings in order. -/
def concatStr (l : List String) : String :=
  l.foldr (fun a b => a ++ b) ""

/-! ### The SSE stream parser (`src/frontend/lib/api.ts`, `createReadingStream`) -/

/-- Parsed JSON payload of one SSE data line — the fields the dispatcher
reads (`data.step`, `data.text`, `data.error`); each may be absent. -/
structure JsonData where
  step : Option String
  text : Option String
  error : Option String
deriving Repr, DecidableEq

/-- One callback invocation dispatched by `createReadingStream` (the
`imagery_chunk` event is forwarded through `onProgress` with step
`imagery_chunk`). -/
inductive SSECallback where
  | progress (step : String) (data : JsonData)
  | interpretation (text : String)
  | complete (data : JsonData)
  | error (msg : String)
deriving Repr, DecidableEq

/-- JS `String.prototype.trim` on a character list. -/
def trimL (l : List Char) : List Char :=
  ((l.dropWhile Char.isWhitespace).reverse.dropWhile Char.isWhitespace).reverse

/-- Dispatch of one parsed data payload under the current event name
(`api.ts` lines 466-479): at most one callback per data line; an
unrecognised event name dispatches nothing.
`step = data.step || 'unknown'`, `data.text || ''`,
`data.error || 'Unknown error'`. -/
def dispatchEvent (ev : List Char) (j : JsonData) : List SSECallback :=
  if ev = "progress".toList then [.progress (jsStrD j.step "unknown") j]
  else if ev = "imagery_chunk".toList then [.progress "imagery_chunk" j]
  else if ev = "interpretation".toList then [.interpretation (jsStrD j.text "")]
  else if ev = "error".toList then [.error (jsStrD j.error "Unknown error")]
  else if ev = "complete".toList then [.complete j]
  else []

/-- State of the line-buffering loop: the unterminated tail (`buffer`),
the current event name (`currentEvent`), and the callbacks dispatched so
far, in order (`out`). -/
structure SSEState where
  buffer : List Char
  currentEvent : List Char
  out : List SSECallback
deriving Repr, DecidableEq

/-- Handling of one complete line (`api.ts` lines 453-485).  The JSON
parse is a parameter: `JSON.parse` is a platform primitive, and `none`
models a parse exception, which the source catches and only logs.  A
data line whose trimmed payload is empty hits `continue`, skipping both
the dispatch and the `currentEvent = ''` reset. -/
def handleLine (parse : List Char → Option JsonData) (s : SSEState) (line : List Char) :
    SSEState :=
  if ("event: ".toList).isPrefixOf line then
    { s with currentEvent := trimL (line.drop 7) }
  else if ("data: ".toList).isPrefixOf line then
    let dataStr := trimL (line.drop 6)
    if dataStr = [] then s
    else
      match parse dataStr with
      | none => { s with currentEvent := [] }
      | some j => { s with out := s.out ++ dispatchEvent s.currentEvent j, currentEvent := [] }
  else s

/-- JS `buffer.split('\n')`: always a non-empty list of pieces. -/
def splitNL : List Char → List (List Char)
  | [] => [[]]
  | c :: rest =>
    if c = '\n' then [] :: splitNL rest
    else (c :: (splitNL rest).headI) :: (splitNL rest).tail

/-- The last piece of a split (JS `lines.pop() || ''`). -/
def lastPart : List (List Char) → List Char
  | [] => []
  | [x] => x
  | _ :: x :: xs => lastPart (x :: xs)

/-- Processing one received chunk (`api.ts` lines 445-487): append to the
buffer, split on newlines, keep the last (unterminated) piece as the new
buffer and handle every completed line in order.  Chunks are modelled at
character level: `TextDecoder.decode(..., {stream: true})` makes the
byte-to-character decoding independent of chunk boundaries. -/
def feedChunk (parse : List Char → Option JsonData) (s : SSEState) (chunk : List Char) :
    SSEState :=
  let parts := splitNL (s.buffer ++ chunk)
  let s1 := parts.dropLast.foldl (handleLine parse) { s with buffer := [] }
  { s1 with buffer := lastPart parts }

/-- Processing a whole sequence of received chunks. -/
def feedChunks (parse : List Char → Option JsonData) (s : SSEState)
    (chunks : List (List Char)) : SSEState :=
  chunks.foldl (feedChunk parse) s

/-- Character-at-a-time reference semantics of the same loop: a newline
completes and handles the buffered line, any other character is
buffered. -/
def feedChar (parse : List Char → Option JsonData) (s : SSEState) (c : Char) : SSEState :=
  if c = '\n' then { handleLine parse s s.buffer with buffer := [] }
  else { s with buffer := s.buffer ++ [c] }

/-- The initial parser state (`buffer = ''`, `currentEvent = ''`). -/
def initSSE : SSEState := { buffer := [], currentEvent := [], out := [] }

/-! ## Theorems -/

/-- Helper: an event whose step is none of the specially-handled ones
(and is not an `imagery_chunk` with truthy text) only overwrites
`currentStep`. -/
theorem onProgressFn_other (s : ClientState) (st : String) (d : ProgressData)
    (h1 : st ≠ "imagery_chunk") (h2 : st ≠ "cards_selected")
    (h3 : st ≠ "imagery_generated") (h4 : st ≠ "interpretation_started") :
    onProgressFn s st d = { s with currentStep := st } := by
  simp [onProgressFn, h1, h2, h3, h4]

/-- Helper: the full effect of a `cards_selected` event carrying a card
list in `selected_cards`. -/
theorem applyEvent_cards_selected (s : ClientState) (cl : List RawCard) :
    applyEvent s (StreamEvent.progress "cards_selected" (payloadOfCards cl)) =
      (let cardData := cl.map convertCard
       let s3 : ClientState :=
         { s with
           currentStep := "cards_selected"
           cards := cardData
           spreadType :=
             if cardData.length = 3 then "three_card"
             else if cardData.length = 10 then "celtic_cross"
             else s.spreadType }
       if 0 < cardData.length then { s3 with displayedCards := cardData.take 1 } else s3) := by
  simp [applyEvent, onProgressFn, payloadOfCards, jsTruthy]

/-- C1: replay determinism of the client state machine — the client
reading state is a pure left-fold of `applyEvent` over the event
sequence, so feeding the same event list to two fresh instances yields
the same final state, and the state after `evs ++ [e]` is `applyEvent`
of the state after `evs`. -/
theorem c1_replay_determinism :
    (∀ (evs : List StreamEvent) (s₁ s₂ : ClientState),
        s₁ = replay evs → s₂ = replay evs → s₁ = s₂) ∧
    (∀ evs : List StreamEvent, replay evs = evs.foldl applyEvent resetState) ∧
    (∀ (evs : List StreamEvent) (e : StreamEvent),
        replay (evs ++ [e]) = applyEvent (replay evs) e) := by
  refine ⟨fun evs s₁ s₂ h₁ h₂ => h₁.trans h₂.symm, fun evs => rfl, fun evs e => ?_⟩
  simp [replay, List.foldl_append]

/-- Witness for C1 at a concrete event list. -/
theorem c1_replay_determinism_witness :
    replay [StreamEvent.interpretation "hi", StreamEvent.error "x"] =
      replay [StreamEvent.interpretation "hi", StreamEvent.error "x"] :=
  c1_replay_determinism.1 [StreamEvent.interpretation "hi", StreamEvent.error "x"] _ _ rfl rfl

/-- C3 counterexample: a `progress` event with step `started` does change
the current step — from the reset step `question_analysis` to the string
`started` (the source runs `setCurrentStep(step as ReadingStep)` for
every progress step other than a truthy `imagery_chunk`). -/
theorem c3_informational_steps_cex :
    (applyEvent resetState (StreamEvent.progress "started" emptyPayload)).currentStep ≠
      resetState.currentStep := by
  decide

/-- C3 amended: a progress event whose step is `started`,
`rag_card_progress` or `rag_first_card_ready` sets the current step to
that step string (leaving every other state field unchanged), rather
than being ignored. -/
theorem c3_informational_steps_amended (s : ClientState) (st : String) (d : ProgressData)
    (h : st = "started" ∨ st = "rag_card_progress" ∨ st = "rag_first_card_ready") :
    applyEvent s (StreamEvent.progress st d) = { s with currentStep := st } := by
  rcases h with h | h | h <;> subst h <;>
    exact onProgressFn_other s _ d (by decide) (by decide) (by decide) (by decide)

/-- Witness for the amended C3 at a concrete state and step. -/
theorem c3_informational_steps_amended_witness :
    applyEvent resetState (StreamEvent.progress "started" emptyPayload) =
      { resetState with currentStep := "started" } :=
  c3_informational_steps_amended resetState "started" emptyPayload (Or.inl rfl)

/-- C6: an error event is terminal for the session — the current step
reverts to `idle`, the error message is surfaced, and the in-flight
interpretation buffers (typing buffer and typed-out display) are
discarded, with the typing interval stopped. -/
theorem c6_error_terminal (s : ClientState) (msg : String) :
    applyEvent s (StreamEvent.error msg) =
      { s with
        currentStep := "idle"
        error := some msg
        interpretationBuffer := ""
        interpretationDisplay := ""
        typingActive := false } :=
  rfl

/-- C7 counterexample: an error event arriving after interpretation text
has been streamed and displayed erases that text — the display buffer is
cleared to `""` instead of being kept visible. -/
theorem c7_error_keeps_text_cex :
    ({ resetState with interpretationDisplay := "partial" } : ClientState).interpretationDisplay ≠ ""
      ∧
    (applyEvent { resetState with interpretationDisplay := "partial" }
        (StreamEvent.error "boom")).interpretationDisplay = "" := by
  decide

/-- C7 amended: on an error event the already-displayed imagery text is
kept, but the already-displayed interpretation text is erased (cleared
to the empty string) rather than kept visible. -/
theorem c7_error_partial_text_amended (s : ClientState) (msg : String) :
    (applyEvent s (StreamEvent.error msg)).imageryDescription = s.imageryDescription ∧
    (applyEvent s (StreamEvent.error msg)).interpretationDisplay = "" :=
  ⟨rfl, rfl⟩

/-- C10: spread-type inference on `cards_selected` — `three_card` for
exactly 3 mapped cards, `celtic_cross` for exactly 10, the previous
spread type otherwise; the initial spread type is `three_card`; a
missing `position_order` maps to 0 and a missing `is_reversed` to
`false`. -/
theorem c10_spread_inference :
    (∀ (s : ClientState) (cl : List RawCard),
        (applyEvent s (StreamEvent.progress "cards_selected" (payloadOfCards cl))).spreadType =
          (if cl.length = 3 then "three_card"
           else if cl.length = 10 then "celtic_cross"
           else s.spreadType)) ∧
    resetState.spreadType = "three_card" ∧
    (∀ c : RawCard, c.position_order = none → (convertCard c).position_order = 0) ∧
    (∀ c : RawCard, c.is_reversed = none → (convertCard c).is_reversed = false) := by
  refine ⟨fun s cl => ?_, rfl, fun c h => by simp [convertCard, h], fun c h => by simp [convertCard, h]⟩
  rw [applyEvent_cards_selected]
  simp [apply_ite ClientState.spreadType, List.length_map]

/-- Helper: a falsy optional string reads as the empty string. -/
theorem getD_empty_of_not_truthy (o : Option String) (h : jsTruthy o = false) :
    o.getD "" = "" := by
  cases o <;> simp_all [jsTruthy]

/-- Helper: one event extends the imagery buffer by exactly its
`imagery_chunk` text (empty for every other event), provided no
`imagery_generated` fallback is adopted. -/
theorem applyEvent_imagery (s : ClientState) (e : StreamEvent)
    (h : ∀ d : ProgressData, e = StreamEvent.progress "imagery_generated" d →
        jsTruthy d.imagery_description = false) :
    (applyEvent s e).imageryDescription = s.imageryDescription ++ chunkTextOf e := by
  cases e with
  | interpretation t => simp [applyEvent, onInterpretationFn, chunkTextOf]
  | complete d => simp [applyEvent, onCompleteFn, chunkTextOf]
  | error m => simp [applyEvent, onErrorFn, chunkTextOf]
  | progress st d =>
    by_cases h1 : st = "imagery_chunk"
    · subst h1
      by_cases h2 : jsTruthy d.text = true
      · simp [applyEvent, onProgressFn, chunkTextOf, h2]
      · have h2' : jsTruthy d.text = false := by simpa using h2
        simp [applyEvent, onProgressFn, chunkTextOf, h2',
              getD_empty_of_not_truthy d.text h2']
    · by_cases h3 : st = "imagery_generated"
      · subst h3
        simp [applyEvent, onProgressFn, chunkTextOf, h d rfl]
      · simp only [applyEvent, onProgressFn, chunkTextOf]
        split_ifs <;> simp_all

/-- Helper: the imagery buffer after a fold is the starting buffer
followed by the chunk texts of the events, in order. -/
theorem foldl_imagery (evs : List StreamEvent) :
    ∀ s : ClientState,
      (∀ d : ProgressData, StreamEvent.progress "imagery_generated" d ∈ evs →
          jsTruthy d.imagery_description = false) →
      (evs.foldl applyEvent s).imageryDescription =
        s.imageryDescription ++ concatStr (evs.map chunkTextOf) := by
  induction evs with
  | nil => intro s _; simp [concatStr]
  | cons e rest ih =>
    intro s h
    rw [List.foldl_cons,
        ih (applyEvent s e) (fun d hd => h d (List.mem_cons_of_mem _ hd)),
        applyEvent_imagery s e (fun d hde => h d (by rw [hde]; exact List.mem_cons_self _ _))]
    simp [concatStr, String.append_assoc]

/-- Helper: concatenating the `imagery_chunk` text fields equals
concatenating the per-event chunk contributions. -/
theorem concat_chunkTexts (evs : List StreamEvent) :
    concatStr (imageryChunkTexts evs) = concatStr (evs.map chunkTextOf) := by
  induction evs with
  | nil => rfl
  | cons e rest ih =>
    cases e with
    | progress st d =>
      by_cases hst : st = "imagery_chunk"
      · subst hst
        simpa [imageryChunkTexts, chunkTextOf, concatStr] using congrArg (d.text.getD "" ++ ·) ih
      · simpa [imageryChunkTexts, chunkTextOf, hst, concatStr] using ih
    | interpretation t => simpa [imageryChunkTexts, chunkTextOf, concatStr] using ih
    | complete d => simpa [imageryChunkTexts, chunkTextOf, concatStr] using ih
    | error m => simpa [imageryChunkTexts, chunkTextOf, concatStr] using ih

/-- C2 counterexample: an `imagery_chunk` event whose text field is the
empty string arrives while the imagery buffer is empty, yet the imagery
panel is not marked visible (`data.text` is falsy, so the whole chunk
branch is skipped). -/
theorem c2_fragment_concat_cex :
    resetState.imageryDescription = "" ∧
    (applyEvent resetState
        (StreamEvent.progress "imagery_chunk"
          { emptyPayload with text := some "" })).showImageryBox = false := by
  decide

/-- C2 amended: with no adopted `imagery_generated` fallback, the imagery
buffer after processing equals the concatenation, in arrival order, of
the text fields of the `imagery_chunk` events; an `imagery_chunk` whose
text is non-empty appends it to the buffer and, if the buffer was empty,
marks the imagery panel visible (an empty-text chunk changes neither). -/
theorem c2_fragment_concat_amended :
    (∀ evs : List StreamEvent, noAdoptedFallback evs →
        (replay evs).imageryDescription = concatStr (imageryChunkTexts evs)) ∧
    (∀ (s : ClientState) (d : ProgressData) (t : String), d.text = some t → t ≠ "" →
        (applyEvent s (StreamEvent.progress "imagery_chunk" d)).imageryDescription =
            s.imageryDescription ++ t ∧
          (s.imageryDescription = "" →
            (applyEvent s (StreamEvent.progress "imagery_chunk" d)).showImageryBox = true)) := by
  constructor
  · intro evs h
    simp only [replay]
    rw [foldl_imagery evs resetState h, concat_chunkTexts]
    simp [resetState]
  · intro s d t ht hne
    have htr : jsTruthy d.text = true := by simp [jsTruthy, ht, hne]
    refine ⟨?_, fun hemp => ?_⟩
    · simp [applyEvent, onProgressFn, ht, jsTruthy, hne]
    · simp [applyEvent, onProgressFn, ht, jsTruthy, hne, hemp]

/-- Witness for the amended C2 at a concrete one-chunk event list. -/
theorem c2_fragment_concat_amended_witness :
    (replay [StreamEvent.progress "imagery_chunk"
        { emptyPayload with text := some "abc" }]).imageryDescription =
      concatStr (imageryChunkTexts
        [StreamEvent.progress "imagery_chunk" { emptyPayload with text := some "abc" }]) ∧
    (applyEvent resetState (StreamEvent.progress "imagery_chunk"
        { emptyPayload with text := some "abc" })).imageryDescription =
      resetState.imageryDescription ++ "abc" :=
  ⟨c2_fragment_concat_amended.1 _ (by intro d hd; simp at hd),
   (c2_fragment_concat_amended.2 resetState
      { emptyPayload with text := some "abc" } "abc" rfl (by decide)).1⟩

/-- Helper: the display sort is a permutation of the card list. -/
theorem sortedCards_perm (cs : List CardData) : List.Perm (sortedCards cs) cs :=
  List.mergeSort_perm cs cardLE

/-- Helper: the display sort is ordered by `position_order`. -/
theorem sortedCards_sorted (cs : List CardData) :
    (sortedCards cs).Pairwise (fun a b => a.position_order ≤ b.position_order) := by
  have h : (List.mergeSort cs cardLE).Pairwise (fun a b => cardLE a b = true) :=
    List.sorted_mergeSort
      (fun a b c hab hbc => by
        simp only [cardLE, decide_eq_true_eq] at *
        exact le_trans hab hbc)
      (fun a b => by
        simp only [cardLE, Bool.or_eq_true, decide_eq_true_eq]
        exact le_total a.position_order b.position_order)
      cs
  exact h.imp (fun hab => by simpa [cardLE] using hab)

/-- C4: on a `cards_selected` progress event carrying a selected-card
list, the client sets the current step to `cards_selected`, replaces its
card list with the full mapped selection, the reveal animation's target
order (`sortedCards`) is a permutation of that selection ordered by
`position_order`, and the animation is triggered by immediately
displaying the first card. -/
theorem c4_cards_selected (s : ClientState) (cl : List RawCard) :
    (applyEvent s (StreamEvent.progress "cards_selected" (payloadOfCards cl))).currentStep =
        "cards_selected" ∧
    (applyEvent s (StreamEvent.progress "cards_selected" (payloadOfCards cl))).cards =
        cl.map convertCard ∧
    List.Perm (sortedCards (cl.map convertCard)) (cl.map convertCard) ∧
    (sortedCards (cl.map convertCard)).Pairwise
        (fun a b => a.position_order ≤ b.position_order) ∧
    (cl ≠ [] →
      (applyEvent s (StreamEvent.progress "cards_selected" (payloadOfCards cl))).displayedCards =
        (cl.map convertCard).take 1) := by
  refine ⟨?_, ?_, sortedCards_perm _, sortedCards_sorted _, ?_⟩
  · simp only [applyEvent_cards_selected]; split_ifs <;> rfl
  · simp only [applyEvent_cards_selected]; split_ifs <;> rfl
  · intro hne
    simp only [applyEvent_cards_selected]
    have hlen : 0 < (cl.map convertCard).length := by
      simp [List.length_pos, hne]
    rw [if_pos hlen]

/-- Witness for C4 at a concrete state and card list. -/
theorem c4_cards_selected_witness :
    (applyEvent resetState
        (StreamEvent.progress "cards_selected" (payloadOfCards [emptyRawCard]))).currentStep =
      "cards_selected" ∧
    (applyEvent resetState
        (StreamEvent.progress "cards_selected" (payloadOfCards [emptyRawCard]))).cards =
      [emptyRawCard].map convertCard ∧
    List.Perm (sortedCards ([emptyRawCard].map convertCard)) ([emptyRawCard].map convertCard) ∧
    (sortedCards ([emptyRawCard].map convertCard)).Pairwise
      (fun a b => a.position_order ≤ b.position_order) ∧
    ([emptyRawCard] ≠ ([] : List RawCard) →
      (applyEvent resetState
          (StreamEvent.progress "cards_selected" (payloadOfCards [emptyRawCard]))).displayedCards =
        ([emptyRawCard].map convertCard).take 1) :=
  c4_cards_selected resetState [emptyRawCard]

/-- C5 counterexample: in the three-card spread the third (last) card is
revealed 2·(5000/3) ms after `cards_selected`, not at the claimed
3·(5000/3) = 5000 ms — the first card is shown immediately, so the whole
reveal finishes one interval early. -/
theorem c5_reveal_pacing_cex :
    revealTime "three_card" 3 3 ≠ 3 * intervalPerCard "three_card" 3 := by
  norm_num [revealTime, intervalPerCard, totalDisplayTime]

/-- C5 amended: cards are revealed one every `totalDisplayTime/N` ms
driven by the local timer, but the first card is displayed immediately
upon `cards_selected`, so card k is revealed (k−1)·(total/N) ms after
`cards_selected` (and the last card of an N-card spread appears after
(N−1)/N of the nominal total duration). -/
theorem c5_reveal_pacing_amended (spread : String) (n k : ℕ) (h : 1 ≤ k) :
    revealTime spread n k = ((k : ℚ) - 1) * intervalPerCard spread n := by
  induction k with
  | zero => exact absurd h (by simp)
  | succ k ih =>
    rcases Nat.eq_zero_or_pos k with hk | hk
    · subst hk; simp [revealTime]
    · simp only [revealTime, if_neg (Nat.pos_iff_ne_zero.mp hk)]
      rw [ih hk]
      push_cast
      ring

/-- Witness for the amended C5 at the three-card spread, third card. -/
theorem c5_reveal_pacing_amended_witness :
    revealTime "three_card" 3 3 = ((3 : ℚ) - 1) * intervalPerCard "three_card" 3 :=
  c5_reveal_pacing_amended "three_card" 3 3 (by norm_num)

/-- Witness for C10 at a concrete state, card list and raw card. -/
theorem c10_spread_inference_witness :
    (applyEvent resetState
        (StreamEvent.progress "cards_selected" (payloadOfCards [emptyRawCard]))).spreadType =
      (if ([emptyRawCard] : List RawCard).length = 3 then "three_card"
       else if ([emptyRawCard] : List RawCard).length = 10 then "celtic_cross"
       else resetState.spreadType) ∧
    (convertCard emptyRawCard).position_order = 0 ∧
    (convertCard emptyRawCard).is_reversed = false :=
  ⟨c10_spread_inference.1 resetState [emptyRawCard],
   c10_spread_inference.2.2.1 emptyRawCard rfl,
   c10_spread_inference.2.2.2 emptyRawCard rfl⟩

/-! ### Lemmas about the SSE parser -/

/-- Helper: a split never returns the empty list of pieces. -/
theorem splitNL_ne_nil (l : List Char) : splitNL l ≠ [] := by
  cases l with
  | nil => simp [splitNL]
  | cons c rest =>
    simp only [splitNL]
    split <;> simp

/-- Helper: splitting a newline-free list yields that one piece. -/
theorem splitNL_no_newline (l : List Char) (h : '\n' ∉ l) : splitNL l = [l] := by
  induction l with
  | nil => rfl
  | cons c rest ih =>
    have hc : c ≠ '\n' := fun hh => h (hh ▸ List.mem_cons_self _ _)
    have hr : '\n' ∉ rest := fun hh => h (List.mem_cons_of_mem _ hh)
    simp [splitNL, hc, ih hr]

/-- Helper: splitting `b ++ '\n' :: rest` with newline-free `b` peels off
`b` as the first completed line. -/
theorem splitNL_append_newline (b rest : List Char) (h : '\n' ∉ b) :
    splitNL (b ++ '\n' :: rest) = b :: splitNL rest := by
  induction b with
  | nil => simp [splitNL]
  | cons c bs ih =>
    have hc : c ≠ '\n' := fun hh => h (hh ▸ List.mem_cons_self _ _)
    have hb : '\n' ∉ bs := fun hh => h (List.mem_cons_of_mem _ hh)
    rw [List.cons_append]
    simp only [splitNL, if_neg hc, ih hb]
    cases hs : splitNL rest with
    | nil => exact absurd hs (splitNL_ne_nil rest)
    | cons p ps => simp

/-- Helper: every piece of a split is newline-free. -/
theorem splitNL_pieces_no_newline (l : List Char) :
    ∀ p ∈ splitNL l, '\n' ∉ p := by
  induction l with
  | nil => intro p hp; simp [splitNL] at hp; simp [hp]
  | cons c rest ih =>
    intro p hp
    simp only [splitNL] at hp
    by_cases hc : c = '\n'
    · rw [if_pos hc] at hp
      rcases List.mem_cons.mp hp with h | h
      · simp [h]
      · exact ih p h
    · rw [if_neg hc] at hp
      cases hs : splitNL rest with
      | nil => exact absurd hs (splitNL_ne_nil rest)
      | cons q qs =>
        rw [hs] at hp
        rcases List.mem_cons.mp hp with h | h
        · subst h
          intro hmem
          rcases List.mem_cons.mp hmem with h' | h'
          · exact hc h'.symm
          · exact ih q (hs ▸ List.mem_cons_self _ _) h'
        · exact ih p (hs ▸ List.mem_cons_of_mem _ h)

/-- Helper: the last piece of a non-empty piece list is one of them. -/
theorem lastPart_mem : ∀ l : List (List Char), l ≠ [] → lastPart l ∈ l
  | [], h => absurd rfl h
  | [x], _ => by simp [lastPart]
  | _ :: x :: xs, _ => by
    simp only [lastPart]
    exact List.mem_cons_of_mem _ (lastPart_mem (x :: xs) (by simp))

/-- Helper: `lastPart` of a cons with non-empty tail skips the head. -/
theorem lastPart_cons (p : List Char) (ps : List (List Char)) (h : ps ≠ []) :
    lastPart (p :: ps) = lastPart ps := by
  cases ps with
  | nil => exact absurd rfl h
  | cons q qs => simp [lastPart]

/-- Helper: handling a line never touches the buffer. -/
theorem handleLine_buffer (parse : List Char → Option JsonData) (s : SSEState)
    (line : List Char) : (handleLine parse s line).buffer = s.buffer := by
  rcases hp : parse (trimL (line.drop 6)) with _ | j <;>
    simp only [handleLine, hp] <;> split_ifs <;> rfl

/-- Helper: handling a line commutes with overwriting the buffer. -/
theorem handleLine_setBuffer (parse : List Char → Option JsonData) (s : SSEState)
    (b line : List Char) :
    handleLine parse { s with buffer := b } line =
      { handleLine parse s line with buffer := b } := by
  rcases hp : parse (trimL (line.drop 6)) with _ | j <;>
    simp only [handleLine, hp] <;> split_ifs <;> rfl

/-- Helper: a fold of line handling never touches the buffer. -/
theorem foldl_handleLine_buffer (parse : List Char → Option JsonData)
    (lines : List (List Char)) :
    ∀ s : SSEState, (lines.foldl (handleLine parse) s).buffer = s.buffer := by
  induction lines with
  | nil => intro s; rfl
  | cons l ls ih =>
    intro s
    rw [List.foldl_cons, ih, handleLine_buffer]

/-- Helper: the chunk-wise loop body equals a character-at-a-time fold,
for states whose buffer holds no newline. -/
theorem feedChunk_eq_foldl (parse : List Char → Option JsonData) (chunk : List Char) :
    ∀ s : SSEState, '\n' ∉ s.buffer →
      feedChunk parse s chunk = chunk.foldl (feedChar parse) s := by
  induction chunk with
  | nil =>
    intro s h
    simp only [feedChunk, List.append_nil, splitNL_no_newline s.buffer h, List.dropLast_single,
      List.foldl_nil, lastPart]
  | cons c rest ih =>
    intro s h
    by_cases hc : c = '\n'
    · subst hc
      rw [List.foldl_cons]
      have hfc : feedChar parse s '\n' = { handleLine parse s s.buffer with buffer := [] } := by
        simp [feedChar]
      have hnb : '\n' ∉ ({ handleLine parse s s.buffer with buffer := [] } : SSEState).buffer := by
        simp
      rw [hfc, ← ih { handleLine parse s s.buffer with buffer := [] } hnb]
      simp only [feedChunk, splitNL_append_newline s.buffer rest h, List.nil_append]
      rw [List.dropLast_cons_of_ne_nil (splitNL_ne_nil rest), List.foldl_cons,
        lastPart_cons _ _ (splitNL_ne_nil rest)]
      rw [handleLine_setBuffer]
    · rw [List.foldl_cons]
      have hfc : feedChar parse s c = { s with buffer := s.buffer ++ [c] } := by
        simp [feedChar, hc]
      have hnb : '\n' ∉ ({ s with buffer := s.buffer ++ [c] } : SSEState).buffer := by
        intro hmem
        rcases List.mem_append.mp hmem with h' | h'
        · exact h h'
        · exact hc (List.mem_singleton.mp h').symm
      rw [hfc, ← ih { s with buffer := s.buffer ++ [c] } hnb]
      simp only [feedChunk, List.append_assoc, List.singleton_append]

/-- Helper: one character step keeps the buffer newline-free. -/
theorem feedChar_no_newline (parse : List Char → Option JsonData) (s : SSEState) (c : Char)
    (h : '\n' ∉ s.buffer) : '\n' ∉ (feedChar parse s c).buffer := by
  by_cases hc : c = '\n'
  · subst hc; simp [feedChar]
  · simp only [feedChar, if_neg hc]
    intro hmem
    rcases List.mem_append.mp hmem with h' | h'
    · exact h h'
    · exact hc (List.mem_singleton.mp h').symm

/-- Helper: a character fold keeps the buffer newline-free. -/
theorem foldl_feedChar_no_newline (parse : List Char → Option JsonData) (cs : List Char) :
    ∀ s : SSEState, '\n' ∉ s.buffer → '\n' ∉ (cs.foldl (feedChar parse) s).buffer := by
  induction cs with
  | nil => intro s h; exact h
  | cons c rest ih =>
    intro s h
    rw [List.foldl_cons]
    exact ih _ (feedChar_no_newline parse s c h)

/-- Helper: feeding a chunk list equals feeding its concatenation one
character at a time. -/
theorem feedChunks_eq_foldl (parse : List Char → Option JsonData)
    (chunks : List (List Char)) :
    ∀ s : SSEState, '\n' ∉ s.buffer →
      feedChunks parse s chunks = chunks.flatten.foldl (feedChar parse) s := by
  induction chunks with
  | nil => intro s _; rfl
  | cons c cs ih =>
    intro s h
    rw [feedChunks, List.foldl_cons, List.flatten_cons, List.foldl_append]
    rw [show List.foldl (feedChunk parse) (feedChunk parse s c) cs = feedChunks parse (feedChunk parse s c) cs from rfl]
    rw [feedChunk_eq_foldl parse c s h]
    exact ih _ (foldl_feedChar_no_newline parse c s h)

/-- C8: chunk-boundary invariance of the SSE stream parser — for any
JSON parse function, two chunkings of the same character stream produce
the same dispatched callback sequence (indeed the same final parser
state). -/
theorem c8_chunk_boundary_invariance (parse : List Char → Option JsonData)
    (cs₁ cs₂ : List (List Char)) (h : cs₁.flatten = cs₂.flatten) :
    (feedChunks parse initSSE cs₁).out = (feedChunks parse initSSE cs₂).out := by
  rw [feedChunks_eq_foldl parse cs₁ initSSE (by simp [initSSE]),
      feedChunks_eq_foldl parse cs₂ initSSE (by simp [initSSE]), h]

/-- Witness for C8: the same bytes split as `["ab", "c\n"]` and
`["abc\n"]` dispatch the same callbacks. -/
theorem c8_chunk_boundary_invariance_witness :
    (feedChunks (fun _ => none) initSSE [['a', 'b'], ['c', '\n']]).out =
      (feedChunks (fun _ => none) initSSE [['a', 'b', 'c', '\n']]).out :=
  c8_chunk_boundary_invariance (fun _ => none) [['a', 'b'], ['c', '\n']]
    [['a', 'b', 'c', '\n']] (by decide)

/-- C9 counterexample: a data line with an empty payload hits `continue`
before the `currentEvent = ''` reset, so the current event name is not
reset after that data line. -/
theorem c9_malformed_input_cex :
    (handleLine (fun _ => none)
        { buffer := [], currentEvent := "progress".toList, out := [] }
        ("data: ".toList)).currentEvent = "progress".toList ∧
    "progress".toList ≠ ([] : List Char) := by
  decide

/-- Helper: a list is a Boolean prefix of itself extended by anything. -/
theorem isPrefixOf_append_self : ∀ (l w : List Char), l.isPrefixOf (l ++ w) = true
  | [], _ => by simp
  | c :: cs, w => by
    simp only [List.cons_append, List.isPrefixOf_cons₂]
    simp [isPrefixOf_append_self cs w]

/-- C9 amended: the parser is total over malformed input — an
empty-payload data line invokes no callback and leaves the whole state
(including the current event name) unchanged; a non-empty payload that
fails to parse invokes no callback and resets the event name; a payload
parsed under an unrecognised event name invokes no callback and resets
the event name; only data lines with a non-empty payload reset the
event name. -/
theorem c9_malformed_input_amended (parse : List Char → Option JsonData) (s : SSEState)
    (w : List Char) :
    (trimL w = [] → handleLine parse s ("data: ".toList ++ w) = s) ∧
    (trimL w ≠ [] → parse (trimL w) = none →
        handleLine parse s ("data: ".toList ++ w) = { s with currentEvent := [] }) ∧
    (∀ j : JsonData, trimL w ≠ [] → parse (trimL w) = some j →
        dispatchEvent s.currentEvent j = [] →
        handleLine parse s ("data: ".toList ++ w) = { s with currentEvent := [] }) ∧
    (∀ ev : List Char, ev ≠ "progress".toList → ev ≠ "imagery_chunk".toList →
        ev ≠ "interpretation".toList → ev ≠ "error".toList → ev ≠ "complete".toList →
        ∀ j : JsonData, dispatchEvent ev j = []) := by
  have hpe : ("event: ".toList).isPrefixOf ("data: ".toList ++ w) = false := rfl
  have hpd : ("data: ".toList).isPrefixOf ("data: ".toList ++ w) = true :=
    isPrefixOf_append_self _ w
  have hdrop : ("data: ".toList ++ w).drop 6 = w := List.drop_left' rfl
  refine ⟨?_, ?_, ?_, ?_⟩
  · intro hw
    simp only [handleLine, hpe, hpd, hdrop]
    simp [hw]
  · intro hw hp
    simp only [handleLine, hpe, hpd, hdrop]
    simp [hw, hp]
  · intro j hw hp hdisp
    simp only [handleLine, hpe, hpd, hdrop]
    simp [hw, hp, hdisp]
  · intro ev h1 h2 h3 h4 h5 j
    simp_all [dispatchEvent]

/-- Witness for the amended C9: a concrete empty-payload data line and a
concrete unparseable data line. -/
theorem c9_malformed_input_amended_witness :
    handleLine (fun _ => none) initSSE ("data: ".toList) = initSSE ∧
    handleLine (fun _ => none) initSSE ("data: ".toList ++ ['x']) =
      { initSSE with currentEvent := [] } :=
  ⟨(c9_malformed_input_amended (fun _ => none) initSSE []).1 rfl,
   (c9_malformed_input_amended (fun _ => none) initSSE ['x']).2.1 (by decide) rfl⟩

end Tarot
